import Mathlib

/-!
Verification of the semantic indexing and retrieval engine of the arXiv
chatbot repository (src/semantic_indexer.py and src/chatbot_interface.py).

The embedding models the Python source shallowly:
* pandas rows (which may hold NaN in optional columns) become the `Article`
  structure with `Option` fields; Python truthiness of a string column
  (`pd.notna(x) and x`) becomes `fieldPopulated`;
* numpy float vectors become `List ℚ` (exact rationals stand in for the
  float arithmetic; the numeric claims checked here are order/bound/shape
  facts that do not depend on rounding);
* the external sentence-transformer encoder is a function parameter, and
  faiss.normalize_L2 (an external deterministic routine applied in place,
  hence shape-preserving) is a function parameter `normFn` on the build
  path and is bundled into the query-encoder parameter on the query path;
* fallible code paths are modelled in `Except`, with the catch-all
  `except` handlers of the source mapped to the corresponding fallback
  values.
-/

namespace ArxivBot

/-- A row of the `articles` table as selected by both
`SemanticIndexer.load_articles_from_database` and
`ArxivChatbot.load_articles_data`: id, arxiv_id, title, abstract,
categories, year, pdf_url, plus the merged `authors` list of the chatbot
interface.  Optional columns may be NaN in pandas, hence `Option`. -/
structure Article where
  id : Int
  arxiv_id : Option String
  title : Option String
  abstract : Option String
  categories : Option String
  year : Option Int
  pdf_url : Option String
  authors : Option (List String)
deriving DecidableEq, Repr

/-- Python truthiness test `pd.notna(x) and x` for an optional string
column: present and non-empty. -/
def fieldPopulated : Option String → Bool
  | some s => !s.isEmpty
  | none => false

/-- `SemanticIndexer.prepare_text_for_embedding` (semantic_indexer.py
lines 72-83): appends `"Title: …"`, `"Abstract: …"`, `"Categories: …"`
segments for each populated field, in that order, and joins them with
`" ".join(parts)`. -/
def prepare_text_for_embedding (r : Article) : String :=
  let parts : List String := []
  let parts := if fieldPopulated r.title then parts ++ ["Title: " ++ r.title.getD ""] else parts
  let parts := if fieldPopulated r.abstract then parts ++ ["Abstract: " ++ r.abstract.getD ""] else parts
  let parts := if fieldPopulated r.categories then parts ++ ["Categories: " ++ r.categories.getD ""] else parts
  String.intercalate " " parts

/-- The TextNormalizer as the spec words it (spec section 4.1): for each
of title, abstract, categories that is present and non-empty, a labeled
segment in that fixed order; segments joined by a single space; absent or
empty fields skipped entirely.  Stated independently of the source
function so the two can be compared. -/
def normalizeSpec (r : Article) : String :=
  String.intercalate " "
    (([("Title: ", r.title), ("Abstract: ", r.abstract), ("Categories: ", r.categories)]).filterMap
      (fun lf =>
        match lf.2 with
        | some s => if s.isEmpty then none else some (lf.1 ++ s)
        | none => none))

/-! ### Generic insertion sort

Used to model both the deterministic order of SQL `ORDER BY a.id` and the
exact top-k scan of the flat inner-product index. -/

/-- Insert `x` into an already-ordered list, just before the first
element that `x` compares at-or-below. -/
def insertLe (le : α → α → Bool) (x : α) : List α → List α
  | y :: ys => if le x y then x :: y :: ys else y :: insertLe le x ys
  | [] => [x]

/-- Insertion sort by the boolean comparator `le`. -/
def sortLe (le : α → α → Bool) : List α → List α
  | x :: xs => insertLe le x (sortLe le xs)
  | [] => []

/-! ### Vectors, inner products, similarity scores

numpy float32 vectors are modelled as `List ℚ`. -/

/-- Inner product of two vectors (numpy inner product as faiss's
IndexFlatIP computes it over the stored vectors). -/
def innerQ (xs ys : List ℚ) : ℚ := (List.zipWith (fun a b => a * b) xs ys).sum

/-- Squared L2 norm of a vector. -/
def norm2 (xs : List ℚ) : ℚ := innerQ xs xs

/-! ### The vector store search -/

/-- Result ordering used by the exact scan: higher score first, ties by
ascending slot. -/
def resLE (a b : Nat × ℚ) : Bool :=
  decide (b.2 < a.2) || (decide (a.2 = b.2) && decide (a.1 ≤ b.1))

/-- Modelled from the spec: `faiss.IndexFlatIP.search` (the faiss library
itself is an external dependency, not part of src/).  Per the spec's
VectorStore contract, the search is an exact brute-force scan: it scores
every stored slot by inner product with the query and returns the top
`min(k, size)` (slot, score) pairs, descending by score, ties by
ascending slot. -/
def faissSearch (store : List (List ℚ)) (q : List ℚ) (k : Nat) : List (Nat × ℚ) :=
  (sortLe resLE ((List.range store.length).map
    (fun i => (i, innerQ q (store.getD i []))))).take k

/-! ### The query path (`ArxivChatbot`, chatbot_interface.py) -/

/-- Python `str.strip()` on a string modelled as a character list:
drop leading and trailing whitespace. -/
def pyStrip (s : List Char) : List Char :=
  ((s.dropWhile Char.isWhitespace).reverse.dropWhile Char.isWhitespace).reverse

/-- Python list subscript `l[i]`: non-negative indices from the front,
negative indices from the back (`l[-1]` is the last element); `none`
models the `IndexError` raised outside `[-len, len)`. -/
def pyListGet (l : List α) (i : Int) : Option α :=
  if 0 ≤ i then l.get? i.toNat
  else if 0 ≤ i + l.length then l.get? (i + l.length).toNat else none

/-- Python membership `x in l`. -/
def pyIn [DecidableEq α] (x : α) (l : List α) : Bool :=
  l.any (fun y => decide (y = x))

/-- The pandas row lookup
`self.articles_df[self.articles_df['id'] == article_id]` followed by
`row.iloc[0]`: the first row of the frame whose id matches, if any. -/
def dfLookup : List Article → Int → Option Article
  | [], _ => none
  | a :: as, i => if a.id = i then some a else dfLookup as i

/-- The result-assembly loop of `ArxivChatbot.semantic_search`
(chatbot_interface.py lines 119-130): for each (score, idx) pair, if
`idx < len(self.article_ids)` resolve `self.article_ids[idx]` (Python
indexing, so a negative `idx` resolves from the back and one below
`-len` raises, modelled as `.error`), look the id up in the articles
frame, and append `(score, article)` when a row exists; otherwise skip
the pair.  An uncaught error discards everything, as an exception does
in the Python loop. -/
def searchLoop (article_ids : List Int) (articles_df : List Article) :
    List (ℚ × Int) → Except Unit (List (ℚ × Article))
  | [] => .ok []
  | (score, idx) :: rest =>
    if idx < (article_ids.length : Int) then
      match pyListGet article_ids idx with
      | none => .error ()
      | some article_id =>
        match dfLookup articles_df article_id with
        | some art => (searchLoop article_ids articles_df rest).map
            (fun rs => (score, art) :: rs)
        | none => searchLoop article_ids articles_df rest
    else searchLoop article_ids articles_df rest

/-- `ArxivChatbot.semantic_search` (chatbot_interface.py lines 109-133).
`encodeNorm` bundles the two external calls
`self.model.encode([query])` and `faiss.normalize_L2`, producing the
normalized query embedding.  The guard `if not query.strip(): return []`
comes first; the body runs under `try`, whose `except` handler reports
the error and returns `[]`. -/
def semantic_search (store : List (List ℚ)) (article_ids : List Int)
    (articles_df : List Article) (encodeNorm : List Char → List ℚ)
    (query : List Char) (k : Nat) : List (ℚ × Article) :=
  if (pyStrip query).isEmpty then []
  else
    match searchLoop article_ids articles_df
        ((faissSearch store (encodeNorm query) k).map (fun p => (p.2, (p.1 : Int)))) with
    | .ok rs => rs
    | .error _ => []

/-- The year filter of `run_interface` (line 243):
`r['article']['year'] in year_filter`; a NaN year is in no filter list. -/
def yearFilterPred (year_filter : List Int) (r : ℚ × Article) : Bool :=
  match r.2.year with
  | some y => pyIn y year_filter
  | none => false

/-- The author filter of `run_interface` (lines 245-246):
`r['article'].get('authors') and any(a in r['article']['authors'] for a
in author_filter)`; a missing or empty author list is falsy. -/
def authorFilterPred (author_filter : List String) (r : ℚ × Article) : Bool :=
  match r.2.authors with
  | some as => !as.isEmpty && author_filter.any (fun a => pyIn a as)
  | none => false

/-- The category filter of `run_interface` (line 248):
`r['article']['categories'] in cat_filter` - membership of the whole
categories string in the selected options. -/
def catFilterPred (cat_filter : List String) (r : ℚ × Article) : Bool :=
  match r.2.categories with
  | some c => pyIn c cat_filter
  | none => false

/-- The filter block of `run_interface` (lines 242-248): each filter is
applied only when its selection list is non-empty (Python truthiness of
a list). -/
def apply_filters (results : List (ℚ × Article)) (year_filter : List Int)
    (author_filter : List String) (cat_filter : List String) : List (ℚ × Article) :=
  let r1 := if year_filter.isEmpty then results else results.filter (yearFilterPred year_filter)
  let r2 := if author_filter.isEmpty then r1 else r1.filter (authorFilterPred author_filter)
  if cat_filter.isEmpty then r2 else r2.filter (catFilterPred cat_filter)

/-- The search branch of `ArxivChatbot.run_interface` (lines 238-248):
`results = self.semantic_search(query, k=10)` followed by the filter
block. -/
def run_interface_results (store : List (List ℚ)) (article_ids : List Int)
    (articles_df : List Article) (encodeNorm : List Char → List ℚ)
    (query : List Char) (year_filter : List Int) (author_filter : List String)
    (cat_filter : List String) : List (ℚ × Article) :=
  apply_filters (semantic_search store article_ids articles_df encodeNorm query 10)
    year_filter author_filter cat_filter

/-- The query policy claim C2 describes (spec section 4.6, steps 3-7),
stated for comparison with the code path: request
`min(store.size, k * OVERFETCH)` candidates with OVERFETCH = 3, apply
the attribute filters, then truncate to `k`. -/
def overfetch_query (store : List (List ℚ)) (article_ids : List Int)
    (articles_df : List Article) (encodeNorm : List Char → List ℚ)
    (query : List Char) (k : Nat) (year_filter : List Int)
    (author_filter : List String) (cat_filter : List String) : List (ℚ × Article) :=
  (apply_filters
    (semantic_search store article_ids articles_df encodeNorm query
      (min store.length (k * 3)))
    year_filter author_filter cat_filter).take k

/-- A minimal article with only an id and a categories string. -/
def mkCatArt (i : Int) (c : String) : Article :=
  { id := i, arxiv_id := none, title := none, abstract := none,
    categories := some c, year := none, pdf_url := none, authors := none }

/-- Concrete eleven-vector store (dimension 1): ten vectors identical to
the query, one orthogonal. -/
def c2store : List (List ℚ) := [[1], [1], [1], [1], [1], [1], [1], [1], [1], [1], [0]]

/-- Correlation map for the eleven-document corpus. -/
def c2ids : List Int := [1, 2, 3, 4, 5, 6, 7, 8, 9, 10, 11]

/-- Metadata frame for the eleven-document corpus: the ten nearest
documents are in category cs.A, the eleventh in cs.B. -/
def c2df : List Article :=
  [mkCatArt 1 "cs.A", mkCatArt 2 "cs.A", mkCatArt 3 "cs.A", mkCatArt 4 "cs.A",
   mkCatArt 5 "cs.A", mkCatArt 6 "cs.A", mkCatArt 7 "cs.A", mkCatArt 8 "cs.A",
   mkCatArt 9 "cs.A", mkCatArt 10 "cs.A", mkCatArt 11 "cs.B"]

/-- An article whose categories string lists two categories. -/
def artMulti : Article :=
  { id := 1, arxiv_id := none, title := none, abstract := none,
    categories := some "cs.AI cs.LG", year := none, pdf_url := none, authors := none }

/-! ### The index build path (`SemanticIndexer`, semantic_indexer.py) -/

/-- What `pickle.dump(metadata, f)` persists at
data/indexes/arxiv_faiss_metadata.pkl (semantic_indexer.py lines
123-129): the slot-to-document-id correlation list, the model name, and
the dimension. -/
structure FaissMetadataPkl where
  article_ids : List Int
  model_name : String
  dimension : Nat
deriving DecidableEq, Repr

/-- What `faiss.write_index` persists at data/indexes/arxiv_faiss.index:
the index header (dimension and vector count ntotal) and the stored
vectors in slot order. -/
structure FaissFile where
  dimension : Nat
  ntotal : Nat
  vectors : List (List ℚ)
deriving DecidableEq, Repr

/-- The pair of artifacts `create_faiss_index` persists. -/
structure IndexArtifacts where
  faissFile : FaissFile
  metadataPkl : FaissMetadataPkl
deriving DecidableEq, Repr

/-- `SemanticIndexer.create_embeddings` (lines 85-103): one embedding
per dataframe row, computed by the external sentence-transformer
(`enc`, for `self.model.encode`) on the prepared text, in row order. -/
def create_embeddings (enc : String → List ℚ) (df : List Article) : List (List ℚ) :=
  df.map (fun r => enc (prepare_text_for_embedding r))

/-- `SemanticIndexer.create_faiss_index` (lines 105-131): normalize the
embeddings in place (faiss.normalize_L2, the external routine `normFn`;
in-place, hence shape-preserving), add them all to a flat
inner-product index, record `article_ids = df['id'].tolist()`, and
persist the index file and the metadata pickle.  `dimension` is
`embeddings.shape[1]`, the common row length of the embedding matrix. -/
def create_faiss_index (normFn : List ℚ → List ℚ) (embeddings : List (List ℚ))
    (df : List Article) : IndexArtifacts :=
  let nv := embeddings.map normFn
  let dimension := (nv.headD []).length
  { faissFile := { dimension := dimension, ntotal := nv.length, vectors := nv }
  , metadataPkl := { article_ids := df.map (fun r => r.id),
                     model_name := "all-MiniLM-L6-v2", dimension := dimension } }

/-- `SemanticIndexer.load_articles_from_database` (lines 45-70): the SQL
query selects the article rows `ORDER BY a.id`; the stored table may
hold them in any order, the query returns them sorted ascending by the
primary-key id. -/
def load_articles_from_database (table : List Article) : List Article :=
  sortLe (fun a b => decide (a.id ≤ b.id)) table

/-- The index-construction pipeline of `process_complete_indexing`
restricted to the persisted index artifacts: load rows in id order,
embed, build and persist the faiss index and metadata. -/
def process_indexing (normFn : List ℚ → List ℚ) (enc : String → List ℚ)
    (table : List Article) : IndexArtifacts :=
  let df := load_articles_from_database table
  create_faiss_index normFn (create_embeddings enc df) df

/-- A persisted artifact payload. -/
inductive Artifact
  | npy (e : List (List ℚ))
  | faiss (f : FaissFile)
  | pkl (m : FaissMetadataPkl)
deriving DecidableEq, Repr

/-- File system modelled as an association list from path to artifact;
a write prepends, a read sees the most recent write. -/
abbrev FS := List (String × Artifact)

/-- Write artifact `a` at path `p`. -/
def fsWrite (fs : FS) (p : String) (a : Artifact) : FS := (p, a) :: fs

/-- Read the artifact most recently written at path `p`, if any. -/
def fsRead (fs : FS) (p : String) : Option Artifact :=
  (fs.find? (fun e => decide (e.1 = p))).map (fun e => e.2)

/-- The persistence actions of one build, in the order the source
performs them: the embeddings file (create_embeddings line 101), the
faiss index (create_faiss_index line 121), the metadata pickle (lines
128-129) - each written directly at its final path; the source uses no
temporary locations and no commit/rename step. -/
def build_writes (normFn : List ℚ → List ℚ) (enc : String → List ℚ)
    (df : List Article) : List (String × Artifact) :=
  let e := create_embeddings enc df
  let a := create_faiss_index normFn e df
  [("data/embeddings/article_embeddings_arxiv.npy", .npy e),
   ("data/indexes/arxiv_faiss.index", .faiss a.faissFile),
   ("data/indexes/arxiv_faiss_metadata.pkl", .pkl a.metadataPkl)]

/-- Apply a list of writes to a file system, in order. -/
def applyWrites (ws : List (String × Artifact)) (fs : FS) : FS :=
  ws.foldl (fun acc w => fsWrite acc w.1 w.2) fs

/-- Execute a build's writes with a fault injected just before the
write numbered `failAt` (0-based); `none` injects no fault.  The
exception propagates (process_complete_indexing catches it and returns
False), so execution stops at the fault and the file system keeps
whatever was already written. -/
def run_build_fs : Option Nat → List (String × Artifact) → FS → FS
  | _, [], fs => fs
  | some 0, _ :: _, fs => fs
  | some (n + 1), w :: ws, fs => run_build_fs (some n) ws (fsWrite fs w.1 w.2)
  | none, w :: ws, fs => run_build_fs none ws (fsWrite fs w.1 w.2)

/-- The file system left by a single-document build that fails at its
third write (the metadata pickle), starting from an empty disk. -/
def c3failedFs : FS :=
  run_build_fs (some 2) (build_writes (fun v => v) (fun _ => [1]) [mkCatArt 1 "cs.A"]) []

/-- C8: text normalization emits one labeled segment per populated field
(title, abstract, categories), in that fixed order, joined by single
spaces, skipping absent/empty fields; a document with no populated field
normalizes to the empty string.  (Determinism is immediate: the model is
a pure function.) -/
theorem C8_prepare_text_matches_spec (r : Article) :
    prepare_text_for_embedding r = normalizeSpec r ∧
    (fieldPopulated r.title = false → fieldPopulated r.abstract = false →
      fieldPopulated r.categories = false → prepare_text_for_embedding r = "") := by
  constructor
  · show String.intercalate " " _ = String.intercalate " " _
    apply congrArg (String.intercalate " ")
    rcases r with ⟨i, ax, t, ab, c, y, p, au⟩
    rcases t with _ | t <;> rcases ab with _ | ab <;> rcases c with _ | c <;>
      simp [fieldPopulated] <;> split_ifs <;> simp_all
  · intro h1 h2 h3
    simp [prepare_text_for_embedding, h1, h2, h3, String.intercalate]

/-- Witness for C8 at concrete articles: one with two populated fields,
and one with no populated field (title is the empty string, the rest
absent), whose normalization is the empty string. -/
theorem C8_prepare_text_matches_spec_witness :
    prepare_text_for_embedding
        { id := 1, arxiv_id := some "1234.5678", title := some "Deep learning",
          abstract := none, categories := some "cs.AI", year := some 2020,
          pdf_url := none, authors := none } =
      normalizeSpec
        { id := 1, arxiv_id := some "1234.5678", title := some "Deep learning",
          abstract := none, categories := some "cs.AI", year := some 2020,
          pdf_url := none, authors := none } ∧
    prepare_text_for_embedding
        { id := 2, arxiv_id := none, title := some "", abstract := none,
          categories := none, year := none, pdf_url := none, authors := none } = "" :=
  ⟨(C8_prepare_text_matches_spec _).1,
   (C8_prepare_text_matches_spec _).2 (by decide) (by decide) (by decide)⟩

theorem perm_insertLe (le : α → α → Bool) (a : α) (l : List α) :
    (insertLe le a l).Perm (a :: l) := by
  induction l with
  | nil => simp [insertLe]
  | cons b bs ih =>
    simp only [insertLe]
    split
    · exact List.Perm.refl _
    · exact (ih.cons b).trans (List.Perm.swap a b bs)

theorem perm_sortLe (le : α → α → Bool) (l : List α) : (sortLe le l).Perm l := by
  induction l with
  | nil => exact List.Perm.refl _
  | cons a as ih => exact (perm_insertLe le a (sortLe le as)).trans (ih.cons a)

theorem length_sortLe (le : α → α → Bool) (l : List α) :
    (sortLe le l).length = l.length :=
  (perm_sortLe le l).length_eq

theorem pairwise_insertLe (le : α → α → Bool)
    (htot : ∀ a b, le a b = true ∨ le b a = true)
    (htrans : ∀ a b c, le a b = true → le b c = true → le a c = true)
    (a : α) {l : List α} (h : l.Pairwise (fun x y => le x y = true)) :
    (insertLe le a l).Pairwise (fun x y => le x y = true) := by
  induction l with
  | nil => simp [insertLe]
  | cons b bs ih =>
    obtain ⟨hb, hbs⟩ := List.pairwise_cons.mp h
    simp only [insertLe]
    split_ifs with hab
    · refine List.Pairwise.cons ?_ h
      intro y hy
      rcases List.mem_cons.mp hy with rfl | hy
      · exact hab
      · exact htrans a b y hab (hb y hy)
    · refine List.Pairwise.cons ?_ (ih hbs)
      intro y hy
      rcases List.mem_cons.mp ((perm_insertLe le a bs).mem_iff.mp hy) with rfl | hy
      · rcases htot y b with h1 | h1
        · exact absurd h1 hab
        · exact h1
      · exact hb y hy

theorem pairwise_sortLe (le : α → α → Bool)
    (htot : ∀ a b, le a b = true ∨ le b a = true)
    (htrans : ∀ a b c, le a b = true → le b c = true → le a c = true)
    (l : List α) : (sortLe le l).Pairwise (fun x y => le x y = true) := by
  induction l with
  | nil => simp [sortLe]
  | cons a as ih => exact pairwise_insertLe le htot htrans a ih

theorem innerQ_cons (a b : ℚ) (as bs : List ℚ) :
    innerQ (a :: as) (b :: bs) = a * b + innerQ as bs := by
  simp [innerQ]

theorem norm2_cons (a : ℚ) (as : List ℚ) : norm2 (a :: as) = a ^ 2 + norm2 as := by
  simp [norm2, innerQ_cons]; ring

theorem norm2_nonneg (xs : List ℚ) : 0 ≤ norm2 xs := by
  induction xs with
  | nil => simp [norm2, innerQ]
  | cons a as ih => rw [norm2_cons]; nlinarith [sq_nonneg a]

/-- Cauchy-Schwarz for list inner products. -/
theorem innerQ_sq_le (xs : List ℚ) : ∀ ys, innerQ xs ys ^ 2 ≤ norm2 xs * norm2 ys := by
  induction xs with
  | nil => intro ys; simp [innerQ, norm2]
  | cons a as ih =>
    intro ys
    cases ys with
    | nil => simp [innerQ, norm2]
    | cons b bs =>
      have hS := ih bs
      have hX := norm2_nonneg as
      have hY := norm2_nonneg bs
      rw [innerQ_cons, norm2_cons, norm2_cons]
      set S := innerQ as bs with hSdef
      set X := norm2 as with hXdef
      set Y := norm2 bs with hYdef
      have hg1 : 0 ≤ X * Y - S ^ 2 := by nlinarith [hS]
      have hpos : 0 ≤ a ^ 2 * Y + b ^ 2 * X :=
        add_nonneg (mul_nonneg (sq_nonneg a) hY) (mul_nonneg (sq_nonneg b) hX)
      have hsq : (2 * a * b * S) ^ 2 ≤ (a ^ 2 * Y + b ^ 2 * X) ^ 2 := by
        nlinarith [sq_nonneg (a ^ 2 * Y - b ^ 2 * X), mul_nonneg (mul_self_nonneg (a * b)) hg1]
      have hkey : 2 * a * b * S ≤ a ^ 2 * Y + b ^ 2 * X := by nlinarith [hsq, hpos]
      nlinarith [hkey, hS]

/-- Inner products of vectors of squared norm at most 1 lie in [-1, 1]. -/
theorem innerQ_bound (q v : List ℚ) (hq : norm2 q ≤ 1) (hv : norm2 v ≤ 1) :
    -1 ≤ innerQ q v ∧ innerQ q v ≤ 1 := by
  have h := innerQ_sq_le q v
  have h1 : innerQ q v ^ 2 ≤ 1 ^ 2 := by
    nlinarith [norm2_nonneg q, norm2_nonneg v]
  exact abs_le_of_sq_le_sq' h1 (by norm_num)

theorem resLE_total (a b : Nat × ℚ) : resLE a b = true ∨ resLE b a = true := by
  simp only [resLE, Bool.or_eq_true, Bool.and_eq_true, decide_eq_true_eq]
  rcases lt_trichotomy a.2 b.2 with h | h | h
  · right; left; exact h
  · rcases Nat.le_total a.1 b.1 with h2 | h2
    · left; right; exact ⟨h, h2⟩
    · right; right; exact ⟨h.symm, h2⟩
  · left; left; exact h

theorem resLE_trans (a b c : Nat × ℚ) (h1 : resLE a b = true) (h2 : resLE b c = true) :
    resLE a c = true := by
  simp only [resLE, Bool.or_eq_true, Bool.and_eq_true, decide_eq_true_eq] at h1 h2 ⊢
  rcases h1 with h1 | ⟨he1, hl1⟩
  · rcases h2 with h2 | ⟨he2, hl2⟩
    · left; exact h2.trans h1
    · left; exact he2 ▸ h1
  · rcases h2 with h2 | ⟨he2, hl2⟩
    · left; exact he1 ▸ h2
    · right; exact ⟨he1.trans he2, hl1.trans hl2⟩

theorem faissSearch_length (store : List (List ℚ)) (q : List ℚ) (k : Nat) :
    (faissSearch store q k).length = min k store.length := by
  simp [faissSearch, List.length_take, length_sortLe]

theorem faissSearch_mem (store : List (List ℚ)) (q : List ℚ) (k : Nat)
    {p : Nat × ℚ} (hp : p ∈ faissSearch store q k) :
    p.1 < store.length ∧ p.2 = innerQ q (store.getD p.1 []) := by
  have h1 : p ∈ sortLe resLE ((List.range store.length).map
      (fun i => (i, innerQ q (store.getD i [])))) :=
    List.take_subset _ _ hp
  have h2 := (perm_sortLe resLE _).mem_iff.mp h1
  obtain ⟨i, hi, hip⟩ := List.mem_map.mp h2
  obtain rfl := hip.symm
  exact ⟨List.mem_range.mp hi, rfl⟩

/-- C4: the similarity search returns exactly `min(k, size)` (slot,
score) pairs, sorted descending by score with ties broken by ascending
slot, every score lies in [-1, 1] (given that the stored vectors and the
query are L2-normalized, i.e. have squared norm at most one), and with
`k` at most the store size exactly `k` results are returned. -/
theorem C4_search_semantics (store : List (List ℚ)) (q : List ℚ) (k : Nat)
    (hstore : ∀ v ∈ store, norm2 v ≤ 1) (hq : norm2 q ≤ 1) :
    (faissSearch store q k).length = min k store.length ∧
    (faissSearch store q k).Pairwise
      (fun a b => b.2 < a.2 ∨ (a.2 = b.2 ∧ a.1 ≤ b.1)) ∧
    (∀ p ∈ faissSearch store q k, -1 ≤ p.2 ∧ p.2 ≤ 1) ∧
    (k ≤ store.length → (faissSearch store q k).length = k) := by
  refine ⟨faissSearch_length store q k, ?_, ?_, ?_⟩
  · have hs := pairwise_sortLe resLE resLE_total resLE_trans
      ((List.range store.length).map (fun i => (i, innerQ q (store.getD i []))))
    have ht : (faissSearch store q k).Pairwise (fun x y => resLE x y = true) :=
      hs.sublist (List.take_sublist k _)
    refine ht.imp ?_
    intro a b hab
    simpa only [resLE, Bool.or_eq_true, Bool.and_eq_true, decide_eq_true_eq] using hab
  · intro p hp
    obtain ⟨hlt, hsc⟩ := faissSearch_mem store q k hp
    have hv : store.getD p.1 [] ∈ store := by
      rw [List.getD_eq_getElem store [] hlt]
      exact List.getElem_mem hlt
    rw [hsc]
    exact innerQ_bound q _ hq (hstore _ hv)
  · intro hk
    rw [faissSearch_length]
    exact Nat.min_eq_left hk

/-- Witness for C4 at a two-vector store of dimension 2 with a unit
query. -/
theorem C4_search_semantics_witness :
    (∀ v ∈ ([[1, 0], [0, 1]] : List (List ℚ)), norm2 v ≤ 1) ∧
    (norm2 [1, 0] ≤ 1) ∧
    ((faissSearch [[1, 0], [0, 1]] [1, 0] 2).length = min 2 ([[1, 0], [0, 1]] : List (List ℚ)).length ∧
      (faissSearch [[1, 0], [0, 1]] [1, 0] 2).Pairwise
        (fun a b => b.2 < a.2 ∨ (a.2 = b.2 ∧ a.1 ≤ b.1)) ∧
      (∀ p ∈ faissSearch [[1, 0], [0, 1]] [1, 0] 2, -1 ≤ p.2 ∧ p.2 ≤ 1) ∧
      (2 ≤ ([[1, 0], [0, 1]] : List (List ℚ)).length →
        (faissSearch [[1, 0], [0, 1]] [1, 0] 2).length = 2)) :=
  ⟨by simp [norm2, innerQ], by simp [norm2, innerQ],
   C4_search_semantics [[1, 0], [0, 1]] [1, 0] 2 (by simp [norm2, innerQ])
     (by simp [norm2, innerQ])⟩

theorem searchLoop_ok_length (article_ids : List Int) (articles_df : List Article)
    (pairs : List (ℚ × Int)) (rs : List (ℚ × Article))
    (h : searchLoop article_ids articles_df pairs = .ok rs) :
    rs.length ≤ pairs.length := by
  induction pairs generalizing rs with
  | nil =>
    simp only [searchLoop] at h
    cases h
    simp
  | cons p rest ih =>
    obtain ⟨score, idx⟩ := p
    simp only [searchLoop] at h
    split at h
    · split at h
      · cases h
      · split at h
        · cases hrec : searchLoop article_ids articles_df rest with
          | ok rs0 =>
            rw [hrec] at h
            cases h
            simpa using Nat.succ_le_succ (ih rs0 hrec)
          | error e => rw [hrec] at h; cases h
        · exact (ih rs h).trans (Nat.le_succ _)
    · exact (ih rs h).trans (Nat.le_succ _)

theorem if_filter_length_le (rs : List (ℚ × Article)) (c : Prop) [Decidable c]
    (p : ℚ × Article → Bool) :
    (if c then rs else rs.filter p).length ≤ rs.length := by
  split
  · exact Nat.le_refl _
  · exact List.length_filter_le _ _

theorem apply_filters_length_le (results : List (ℚ × Article)) (year_filter : List Int)
    (author_filter : List String) (cat_filter : List String) :
    (apply_filters results year_filter author_filter cat_filter).length ≤ results.length := by
  unfold apply_filters
  exact (if_filter_length_le _ _ _).trans
    ((if_filter_length_le _ _ _).trans (if_filter_length_le _ _ _))

theorem semantic_search_length_le (store : List (List ℚ)) (article_ids : List Int)
    (articles_df : List Article) (encodeNorm : List Char → List ℚ)
    (query : List Char) (k : Nat) :
    (semantic_search store article_ids articles_df encodeNorm query k).length ≤
      min k store.length := by
  unfold semantic_search
  split
  · simp
  · split
    · next rs h =>
      have h1 := searchLoop_ok_length _ _ _ _ h
      rw [List.length_map, faissSearch_length] at h1
      exact h1
    · simp

/-- C2 (amended): the interface performs no overfetch - it requests
exactly k = 10 candidates from the vector store, applies the attribute
filters to those candidates only, and therefore never returns more than
`min(10, store size)` results: filters can only shrink the candidate
set, never reach deeper into the corpus. -/
theorem C2_no_overfetch (store : List (List ℚ)) (article_ids : List Int)
    (articles_df : List Article) (encodeNorm : List Char → List ℚ)
    (query : List Char) (year_filter : List Int) (author_filter : List String)
    (cat_filter : List String) :
    run_interface_results store article_ids articles_df encodeNorm query
        year_filter author_filter cat_filter =
      apply_filters (semantic_search store article_ids articles_df encodeNorm query 10)
        year_filter author_filter cat_filter ∧
    (run_interface_results store article_ids articles_df encodeNorm query
        year_filter author_filter cat_filter).length ≤ min 10 store.length := by
  refine ⟨rfl, ?_⟩
  exact (apply_filters_length_le _ _ _ _).trans
    (semantic_search_length_le store article_ids articles_df encodeNorm query 10)

/-- C2 counterexample to the claim as stated: eleven documents, the ten
nearest in category cs.A, the eleventh (which matches the selected
filter cs.B) ranked last.  The interface requests exactly 10 candidates
- not `min(store.size, k * OVERFETCH) = 11` - so filtering yields no
result even though a matching document exists; the overfetch policy the
claim describes would return it. -/
theorem C2_counterexample :
    run_interface_results c2store c2ids c2df (fun _ => [1]) ['x'] [] [] ["cs.B"] = [] ∧
    overfetch_query c2store c2ids c2df (fun _ => [1]) ['x'] 10 [] [] ["cs.B"] =
      [(0, mkCatArt 11 "cs.B")] ∧
    (faissSearch c2store [1] 10).length = 10 ∧
    min c2store.length (10 * 3) = 11 := by
  refine ⟨?_, ?_, ?_, by simp [c2store]⟩
  · norm_num [run_interface_results, semantic_search, apply_filters, faissSearch, sortLe,
      insertLe, resLE, innerQ, searchLoop, pyStrip, pyListGet, dfLookup, mkCatArt,
      catFilterPred, pyIn, c2store, c2ids, c2df, List.range_succ, List.get?,
      Int.toNat, List.getD, Except.map, List.dropWhile, Char.isWhitespace]
    simp
    intro s art hmem
    have hcat : art.categories = some "cs.A" := by
      rcases hmem with h | h | h | h | h | h | h | h | h | h <;> exact h.2 ▸ rfl
    rw [hcat]
    decide
  · norm_num [overfetch_query, semantic_search, apply_filters, faissSearch, sortLe,
      insertLe, resLE, innerQ, searchLoop, pyStrip, pyListGet, dfLookup, mkCatArt,
      catFilterPred, pyIn, c2store, c2ids, c2df, List.range_succ, List.get?,
      Int.toNat, List.getD, Except.map, List.dropWhile, Char.isWhitespace, List.filter]
    simp
  · rw [faissSearch_length]
    simp [c2store]

/-- C6: a query whose text is empty or whitespace-only returns an empty
result list and raises no error: the `if not query.strip(): return []`
guard returns before any of the fallible steps (encoding, search,
resolution) runs, for every store, correlation map, metadata frame and
encoder. -/
theorem C6_whitespace_query_empty (store : List (List ℚ)) (article_ids : List Int)
    (articles_df : List Article) (encodeNorm : List Char → List ℚ)
    (query : List Char) (k : Nat) (h : ∀ c ∈ query, c.isWhitespace = true) :
    semantic_search store article_ids articles_df encodeNorm query k = [] := by
  have h1 : query.dropWhile Char.isWhitespace = [] :=
    List.dropWhile_eq_nil_iff.mpr (fun x hx => by simpa using h x hx)
  have h2 : pyStrip query = [] := by simp [pyStrip, h1]
  simp [semantic_search, h2]

/-- Witness for C6 at the whitespace-only query " \t". -/
theorem C6_whitespace_query_empty_witness :
    (∀ c ∈ [' ', '\t'], c.isWhitespace = true) ∧
    semantic_search [[1]] [1] [mkCatArt 1 "cs.A"] (fun _ => [1]) [' ', '\t'] 5 = [] :=
  ⟨by decide, C6_whitespace_query_empty _ _ _ _ _ _ (by decide)⟩

/-- C5 counterexample to the claim as stated, at the correlation map
[7, 8] (length 2): the out-of-bounds slot -1 passes the
`idx < len(self.article_ids)` check and is silently resolved - via
Python negative indexing - to document 8, and the out-of-bounds slot 5
is silently skipped with the query succeeding; neither fails with
IndexCorruption. -/
theorem C5_counterexample :
    searchLoop [7, 8] [mkCatArt 7 "cs.A", mkCatArt 8 "cs.A"] [((1 : ℚ), (-1 : Int))] =
      .ok [(1, mkCatArt 8 "cs.A")] ∧
    searchLoop [7, 8] [mkCatArt 7 "cs.A", mkCatArt 8 "cs.A"] [((1 : ℚ), (5 : Int))] =
      .ok [] := by
  constructor <;>
    norm_num [searchLoop, pyListGet, dfLookup, mkCatArt, Int.toNat, List.get?, Except.map]

/-- C5 (amended): an out-of-bounds slot never fails the query with an
IndexCorruption error.  A slot at or beyond the correlation-map length
is silently skipped and processing continues; a negative slot in
[-len, 0) passes the `idx < len(self.article_ids)` check and is
silently resolved through Python negative indexing, behaving exactly
like the in-bounds slot len + idx; a slot below -len raises IndexError,
which the surrounding catch-all handler converts into an empty result
list. -/
theorem C5_out_of_bounds_never_fails (article_ids : List Int) (articles_df : List Article)
    (score : ℚ) (idx : Int) (rest : List (ℚ × Int)) :
    ((article_ids.length : Int) ≤ idx →
      searchLoop article_ids articles_df ((score, idx) :: rest) =
        searchLoop article_ids articles_df rest) ∧
    (-(article_ids.length : Int) ≤ idx → idx < 0 →
      searchLoop article_ids articles_df ((score, idx) :: rest) =
        searchLoop article_ids articles_df ((score, idx + article_ids.length) :: rest)) ∧
    (idx < -(article_ids.length : Int) →
      searchLoop article_ids articles_df ((score, idx) :: rest) = .error ()) := by
  refine ⟨?_, ?_, ?_⟩
  · intro h
    simp only [searchLoop]
    rw [if_neg (not_lt.mpr h)]
  · intro h1 h2
    have ha : idx < (article_ids.length : Int) := by omega
    have hb : idx + article_ids.length < (article_ids.length : Int) := by omega
    have hc : 0 ≤ idx + article_ids.length := by omega
    have g1 : pyListGet article_ids idx = article_ids.get? (idx + article_ids.length).toNat := by
      rw [pyListGet, if_neg (by omega), if_pos hc]
    have g2 : pyListGet article_ids (idx + article_ids.length) =
        article_ids.get? (idx + article_ids.length).toNat := by
      rw [pyListGet, if_pos hc]
    simp only [searchLoop]
    rw [if_pos ha, if_pos hb, g1, g2]
  · intro h
    have ha : idx < (article_ids.length : Int) := by omega
    have g1 : pyListGet article_ids idx = none := by
      rw [pyListGet, if_neg (by omega), if_neg (by omega)]
    simp only [searchLoop]
    rw [if_pos ha, g1]

/-- Witness for C5 (amended) at the correlation map [7, 8]: slot 5 is
skipped, slot -1 behaves like slot 1, slot -3 errors. -/
theorem C5_out_of_bounds_never_fails_witness :
    (((([7, 8] : List Int).length : Int) ≤ 5) ∧
      searchLoop [7, 8] [] [((1 : ℚ), (5 : Int))] = searchLoop [7, 8] [] []) ∧
    (searchLoop [7, 8] [] [((1 : ℚ), (-1 : Int))] =
      searchLoop [7, 8] [] [((1 : ℚ), -1 + (([7, 8] : List Int).length : Int))]) ∧
    (searchLoop [7, 8] [] [((1 : ℚ), (-3 : Int))] = .error ()) :=
  ⟨⟨by decide, (C5_out_of_bounds_never_fails [7, 8] [] 1 5 []).1 (by decide)⟩,
   (C5_out_of_bounds_never_fails [7, 8] [] 1 (-1) []).2.1 (by decide) (by decide),
   (C5_out_of_bounds_never_fails [7, 8] [] 1 (-3) []).2.2 (by decide)⟩

theorem filterMap_fst_sublist {β : Type} (pairs : List (ℚ × Int))
    (f : ℚ × Int → Option (ℚ × β))
    (hf : ∀ p r, f p = some r → r.1 = p.1) :
    ((pairs.filterMap f).map (fun r => r.1)).Sublist (pairs.map (fun p => p.1)) := by
  induction pairs with
  | nil => simp
  | cons p rest ih =>
    cases hfp : f p with
    | none => simpa [List.filterMap_cons, hfp] using ih.cons p.1
    | some r =>
      have := hf p r hfp
      simpa [List.filterMap_cons, hfp, this] using ih.cons₂ p.1

theorem searchLoop_in_bounds_eq (article_ids : List Int) (articles_df : List Article) :
    ∀ pairs : List (ℚ × Int),
      (∀ p ∈ pairs, 0 ≤ p.2 ∧ p.2 < (article_ids.length : Int)) →
      searchLoop article_ids articles_df pairs =
        .ok (pairs.filterMap (fun p =>
          (article_ids.get? p.2.toNat).bind (fun i =>
            (dfLookup articles_df i).map (fun art => (p.1, art))))) := by
  intro pairs
  induction pairs with
  | nil => intro h; simp [searchLoop]
  | cons p rest ih =>
    intro h
    obtain ⟨score, idx⟩ := p
    obtain ⟨h1, h2⟩ := h (score, idx) (List.mem_cons_self _ _)
    have hrest : ∀ p ∈ rest, 0 ≤ p.2 ∧ p.2 < (article_ids.length : Int) :=
      fun p hp => h p (List.mem_cons_of_mem _ hp)
    have hlt : idx.toNat < article_ids.length := by omega
    have haid : article_ids.get? idx.toNat = some (article_ids.get ⟨idx.toNat, hlt⟩) :=
      List.get?_eq_get hlt
    have hpy : pyListGet article_ids idx = some (article_ids.get ⟨idx.toNat, hlt⟩) := by
      rw [pyListGet, if_pos h1, haid]
    simp only [searchLoop, List.filterMap_cons]
    rw [if_pos h2, hpy]
    simp only [haid, Option.some_bind]
    cases hfind : dfLookup articles_df (article_ids.get ⟨idx.toNat, hlt⟩) with
    | none => simpa [hfind] using ih hrest
    | some art => rw [ih hrest]; simp [hfind, Except.map]

/-- C7: when every returned slot lies within the correlation-map bounds,
the result-assembly loop never errors and returns, in candidate order,
exactly the candidates whose document id resolves in the metadata
frame: a resolution miss (stale index entry) drops that single result
and processing continues, and the surviving results keep their relative
score order (their scores form a sublist of the candidate scores). -/
theorem C7_stale_reference_skipped (article_ids : List Int) (articles_df : List Article)
    (pairs : List (ℚ × Int))
    (h : ∀ p ∈ pairs, 0 ≤ p.2 ∧ p.2 < (article_ids.length : Int)) :
    searchLoop article_ids articles_df pairs =
      .ok (pairs.filterMap (fun p =>
        (article_ids.get? p.2.toNat).bind (fun i =>
          (dfLookup articles_df i).map (fun art => (p.1, art))))) ∧
    ∀ rs, searchLoop article_ids articles_df pairs = .ok rs →
      (rs.map (fun r => r.1)).Sublist (pairs.map (fun p => p.1)) := by
  refine ⟨searchLoop_in_bounds_eq article_ids articles_df pairs h, ?_⟩
  intro rs hrs
  rw [searchLoop_in_bounds_eq article_ids articles_df pairs h] at hrs
  obtain rfl : _ = rs := Except.ok.inj hrs
  apply filterMap_fst_sublist
  intro p r hpr
  cases hg : article_ids.get? p.2.toNat with
  | none => rw [hg] at hpr; cases hpr
  | some i =>
    rw [hg] at hpr
    simp only [Option.some_bind] at hpr
    cases hd : dfLookup articles_df i with
    | none => rw [hd] at hpr; simp at hpr
    | some art =>
      rw [hd] at hpr
      simp only [Option.map_some'] at hpr
      obtain rfl := Option.some.inj hpr
      rfl

/-- Witness for C7: correlation map [10, 99], metadata frame containing
only document 10; the slot resolving to the stale id 99 is dropped, the
other survives. -/
theorem C7_stale_reference_skipped_witness :
    (∀ p ∈ ([((1 : ℚ), (0 : Int)), (2, 1)] : List (ℚ × Int)),
      0 ≤ p.2 ∧ p.2 < ((([10, 99] : List Int)).length : Int)) ∧
    (searchLoop [10, 99] [mkCatArt 10 "cs.A"] [((1 : ℚ), (0 : Int)), (2, 1)] =
      .ok ((([((1 : ℚ), (0 : Int)), (2, 1)] : List (ℚ × Int))).filterMap (fun p =>
        ((([10, 99] : List Int)).get? p.2.toNat).bind (fun i =>
          (dfLookup [mkCatArt 10 "cs.A"] i).map (fun art => (p.1, art))))) ∧
      ∀ rs, searchLoop [10, 99] [mkCatArt 10 "cs.A"] [((1 : ℚ), (0 : Int)), (2, 1)] = .ok rs →
        (rs.map (fun r => r.1)).Sublist
          ((([((1 : ℚ), (0 : Int)), (2, 1)] : List (ℚ × Int))).map (fun p => p.1))) :=
  ⟨by decide, C7_stale_reference_skipped [10, 99] [mkCatArt 10 "cs.A"] _ (by decide)⟩

/-- C10: with a non-empty category selection, the interface's category
filter keeps a result exactly when the document's whole categories
string equals one of the selected options - substring or token matches
never qualify, so a multi-category string matches no single-category
option. -/
theorem C10_cat_filter_exact_match (results : List (ℚ × Article))
    (cat_filter : List String) (r : ℚ × Article) (h : cat_filter ≠ []) :
    r ∈ apply_filters results [] [] cat_filter ↔
      r ∈ results ∧ ∃ c, r.2.categories = some c ∧ c ∈ cat_filter := by
  have hne : cat_filter.isEmpty = false := by
    cases cat_filter with
    | nil => exact absurd rfl h
    | cons a as => rfl
  have happ : apply_filters results [] [] cat_filter =
      results.filter (catFilterPred cat_filter) := by
    unfold apply_filters
    simp [hne]
  rw [happ, List.mem_filter]
  constructor
  · rintro ⟨hmem, hpred⟩
    refine ⟨hmem, ?_⟩
    cases hc : r.2.categories with
    | none => rw [catFilterPred, hc] at hpred; cases hpred
    | some c =>
      rw [catFilterPred, hc] at hpred
      simp only [pyIn, List.any_eq_true, decide_eq_true_eq] at hpred
      obtain ⟨y, hy, rfl⟩ := hpred
      exact ⟨y, rfl, hy⟩
  · rintro ⟨hmem, c, hc, hcf⟩
    refine ⟨hmem, ?_⟩
    rw [catFilterPred, hc]
    simp only [pyIn, List.any_eq_true, decide_eq_true_eq]
    exact ⟨c, hcf, rfl⟩

/-- Witness for C10: the document categorized "cs.AI cs.LG" does not
pass the filter that selects the single category "cs.AI". -/
theorem C10_cat_filter_exact_match_witness :
    (["cs.AI"] : List String) ≠ [] ∧
    ((1 : ℚ), artMulti) ∉ apply_filters [((1 : ℚ), artMulti)] [] [] ["cs.AI"] := by
  refine ⟨by simp, fun hmem => ?_⟩
  obtain ⟨-, c, hc, hcf⟩ :=
    (C10_cat_filter_exact_match [((1 : ℚ), artMulti)] ["cs.AI"] ((1 : ℚ), artMulti)
      (by simp)).mp hmem
  have hceq : c = "cs.AI cs.LG" := by
    have : (artMulti).categories = some "cs.AI cs.LG" := rfl
    rw [this] at hc
    exact (Option.some.inj hc).symm
  rw [hceq] at hcf
  simp at hcf

/-- C1: for every build, the number of vectors stored in the persisted
index, the vector count recorded in its header (ntotal), and the length
of the slot-to-document-id correlation map in the metadata pickle are
all equal - each is the number of dataframe rows. -/
theorem C1_counts_aligned (normFn : List ℚ → List ℚ) (enc : String → List ℚ)
    (df : List Article) :
    (create_faiss_index normFn (create_embeddings enc df) df).faissFile.vectors.length =
      (create_faiss_index normFn (create_embeddings enc df) df).metadataPkl.article_ids.length ∧
    (create_faiss_index normFn (create_embeddings enc df) df).faissFile.ntotal =
      (create_faiss_index normFn (create_embeddings enc df) df).metadataPkl.article_ids.length ∧
    (create_faiss_index normFn (create_embeddings enc df) df).metadataPkl.article_ids.length =
      df.length := by
  simp [create_faiss_index, create_embeddings]

theorem run_build_fs_take (ws : List (String × Artifact)) :
    ∀ (i : Nat) (fs : FS), run_build_fs (some i) ws fs = applyWrites (ws.take i) fs := by
  induction ws with
  | nil => intro i fs; cases i <;> simp [run_build_fs, applyWrites]
  | cons w ws ih =>
    intro i fs
    cases i with
    | zero => simp [run_build_fs, applyWrites]
    | succ n => simp [run_build_fs, applyWrites, ih n]

theorem run_build_fs_none (ws : List (String × Artifact)) :
    ∀ fs : FS, run_build_fs none ws fs = applyWrites ws fs := by
  induction ws with
  | nil => intro fs; simp [run_build_fs, applyWrites]
  | cons w ws ih => intro fs; simp [run_build_fs, applyWrites, ih]

/-- C3 (amended): persistence is sequential and direct to the final
paths, with no temporary locations and no commit step: a build that
fails just before its i-th write leaves exactly the first i artifacts
committed at their final destinations - artifacts written before the
failure stay on disk even though the build aborts. -/
theorem C3_persistence_not_atomic (normFn : List ℚ → List ℚ) (enc : String → List ℚ)
    (df : List Article) (fs : FS) (i : Nat) :
    run_build_fs (some i) (build_writes normFn enc df) fs =
      applyWrites ((build_writes normFn enc df).take i) fs ∧
    run_build_fs none (build_writes normFn enc df) fs =
      applyWrites (build_writes normFn enc df) fs :=
  ⟨run_build_fs_take _ i fs, run_build_fs_none _ fs⟩

/-- C3 counterexample to atomicity as claimed: a single-document build
failing at the metadata write aborts, yet the embeddings file and the
faiss index are already committed at their final paths while the
metadata pickle is absent - a partially-updated index on disk, where
atomic persistence would have left the disk unchanged. -/
theorem C3_counterexample :
    fsRead c3failedFs "data/embeddings/article_embeddings_arxiv.npy" ≠ none ∧
    fsRead c3failedFs "data/indexes/arxiv_faiss.index" ≠ none ∧
    fsRead c3failedFs "data/indexes/arxiv_faiss_metadata.pkl" = none ∧
    c3failedFs ≠ ([] : FS) := by
  norm_num [c3failedFs, run_build_fs, build_writes, fsWrite, fsRead, applyWrites,
    create_embeddings, create_faiss_index, mkCatArt, List.find?]
  simp

/-- C9: two builds over the same document set (the same rows in any
storage order, with pairwise-distinct primary-key ids) and the same
encoder and normalization routine produce identical persisted artifacts
- the same faiss index file and the same metadata pickle, hence the
same slot ordering - and the slot order is the documents sorted
ascending by internal id. -/
theorem C9_build_deterministic (normFn : List ℚ → List ℚ) (enc : String → List ℚ)
    (t1 t2 : List Article) (hperm : t1.Perm t2)
    (hnodup : (t1.map (fun a => a.id)).Nodup) :
    process_indexing normFn enc t1 = process_indexing normFn enc t2 ∧
    (process_indexing normFn enc t1).metadataPkl.article_ids.Pairwise (· ≤ ·) := by
  have htot : ∀ a b : Article,
      decide (a.id ≤ b.id) = true ∨ decide (b.id ≤ a.id) = true := by
    intro a b
    rcases le_total a.id b.id with h | h
    · left; exact decide_eq_true h
    · right; exact decide_eq_true h
  have htrans : ∀ a b c : Article, decide (a.id ≤ b.id) = true →
      decide (b.id ≤ c.id) = true → decide (a.id ≤ c.id) = true := by
    intro a b c h1 h2
    exact decide_eq_true ((of_decide_eq_true h1).trans (of_decide_eq_true h2))
  have hsorted : ∀ t : List Article,
      (load_articles_from_database t).Pairwise (fun a b => a.id ≤ b.id) :=
    fun t => (pairwise_sortLe _ htot htrans t).imp (fun h => of_decide_eq_true h)
  have hload : ∀ t : List Article, (load_articles_from_database t).Perm t :=
    fun t => perm_sortLe _ t
  have hnd2 : (t2.map (fun a => a.id)).Nodup := ((hperm.map _).nodup_iff).mp hnodup
  have hstrict : ∀ t : List Article, (t.map (fun a => a.id)).Nodup →
      (load_articles_from_database t).Pairwise (fun a b => a.id < b.id) := by
    intro t hnd
    have hndl : ((load_articles_from_database t).map (fun a => a.id)).Nodup :=
      (((hload t).map _).nodup_iff).mpr hnd
    have hne : (load_articles_from_database t).Pairwise (fun a b => a.id ≠ b.id) :=
      List.pairwise_map.mp hndl
    exact ((hsorted t).and hne).imp (fun h => lt_of_le_of_ne h.1 h.2)
  have heq : load_articles_from_database t1 = load_articles_from_database t2 := by
    have hperm12 : (load_articles_from_database t1).Perm (load_articles_from_database t2) :=
      ((hload t1).trans hperm).trans (hload t2).symm
    haveI : IsAntisymm Article (fun a b => a.id < b.id) :=
      ⟨fun a b h1 h2 => absurd (h1.trans h2) (lt_irrefl _)⟩
    exact List.eq_of_perm_of_sorted hperm12 (hstrict t1 hnodup) (hstrict t2 hnd2)
  constructor
  · unfold process_indexing
    rw [heq]
  · have harts : (process_indexing normFn enc t1).metadataPkl.article_ids =
        (load_articles_from_database t1).map (fun a => a.id) := by
      simp [process_indexing, create_faiss_index]
    rw [harts]
    exact List.pairwise_map.mpr (hsorted t1)

/-- Witness for C9: the same two documents in the two possible storage
orders build identical artifacts. -/
theorem C9_build_deterministic_witness :
    (([mkCatArt 2 "cs.A", mkCatArt 1 "cs.B"] : List Article).Perm
        [mkCatArt 1 "cs.B", mkCatArt 2 "cs.A"]) ∧
    ((([mkCatArt 2 "cs.A", mkCatArt 1 "cs.B"] : List Article)).map (fun a => a.id)).Nodup ∧
    (process_indexing (fun v => v) (fun _ => [1]) [mkCatArt 2 "cs.A", mkCatArt 1 "cs.B"] =
        process_indexing (fun v => v) (fun _ => [1]) [mkCatArt 1 "cs.B", mkCatArt 2 "cs.A"] ∧
      (process_indexing (fun v => v) (fun _ => [1])
          [mkCatArt 2 "cs.A", mkCatArt 1 "cs.B"]).metadataPkl.article_ids.Pairwise (· ≤ ·)) :=
  ⟨List.Perm.swap (mkCatArt 1 "cs.B") (mkCatArt 2 "cs.A") [], by decide,
   C9_build_deterministic (fun v => v) (fun _ => [1]) _ _
     (List.Perm.swap (mkCatArt 1 "cs.B") (mkCatArt 2 "cs.A") []) (by decide)⟩

end ArxivBot
